import Mathlib

/-!
Verification of the datetime normalization / sorting subsystem and the
endpoint-to-application resolver of the analytics dashboard
(src/app/dashboard/page.tsx), through a shallow embedding in Lean 4.

External runtime functions (JavaScript Date.parse and JSON.parse) are
modelled as explicit parameters of the embedded functions: the repository
calls into the JS engine for these, so theorems are stated for every
behaviour of the engine, and concrete environments are supplied where a
claim is evaluated on a concrete input.
-/

/-- Model of the JavaScript numbers that flow through the sorting code:
only NaN, the two infinities, and finite timestamps (integral milliseconds)
ever appear. -/
inductive JSNum where
  | nan : JSNum
  | negInf : JSNum
  | posInf : JSNum
  | fin : Int → JSNum
deriving DecidableEq

/-- JavaScript subtraction restricted to the values above
(IEEE-754 rules: anything with NaN is NaN, inf minus inf of the same sign
is NaN, infinities absorb finite operands). -/
def JSNum.sub : JSNum → JSNum → JSNum
  | JSNum.nan, _ => JSNum.nan
  | _, JSNum.nan => JSNum.nan
  | JSNum.negInf, JSNum.negInf => JSNum.nan
  | JSNum.negInf, JSNum.posInf => JSNum.negInf
  | JSNum.negInf, JSNum.fin _ => JSNum.negInf
  | JSNum.posInf, JSNum.posInf => JSNum.nan
  | JSNum.posInf, JSNum.negInf => JSNum.posInf
  | JSNum.posInf, JSNum.fin _ => JSNum.posInf
  | JSNum.fin _, JSNum.negInf => JSNum.posInf
  | JSNum.fin _, JSNum.posInf => JSNum.negInf
  | JSNum.fin a, JSNum.fin b => JSNum.fin (a - b)

/-- JavaScript test v < 0 (false on NaN). -/
def JSNum.ltZero : JSNum → Bool
  | JSNum.nan => false
  | JSNum.negInf => true
  | JSNum.posInf => false
  | JSNum.fin n => decide (n < 0)

/-- JavaScript test v > 0 (false on NaN). -/
def JSNum.gtZero : JSNum → Bool
  | JSNum.nan => false
  | JSNum.negInf => false
  | JSNum.posInf => true
  | JSNum.fin n => decide (0 < n)

/-- JavaScript strict comparison a < b on the modelled numbers
(false whenever an operand is NaN). -/
def JSNum.jlt : JSNum → JSNum → Bool
  | JSNum.nan, _ => false
  | _, JSNum.nan => false
  | JSNum.negInf, JSNum.negInf => false
  | JSNum.negInf, _ => true
  | JSNum.posInf, _ => false
  | JSNum.fin _, JSNum.negInf => false
  | JSNum.fin _, JSNum.posInf => true
  | JSNum.fin a, JSNum.fin b => decide (a < b)

/-- JavaScript comparison a <= b on the modelled numbers
(false whenever an operand is NaN). -/
def JSNum.jle : JSNum → JSNum → Bool
  | JSNum.nan, _ => false
  | _, JSNum.nan => false
  | JSNum.negInf, _ => true
  | JSNum.posInf, JSNum.posInf => true
  | JSNum.posInf, _ => false
  | JSNum.fin _, JSNum.negInf => false
  | JSNum.fin _, JSNum.posInf => true
  | JSNum.fin a, JSNum.fin b => decide (a ≤ b)

/-- Number.isNaN on the modelled numbers. -/
def JSNum.isNaN : JSNum → Bool
  | JSNum.nan => true
  | _ => false

/-- JavaScript string truthiness: a string is truthy iff it is non-empty. -/
def strTruthy (s : String) : Bool := !s.toList.isEmpty

/-- Truthiness of an optional string argument: undefined and the empty
string are falsy. -/
def optTruthy : Option String → Bool
  | none => false
  | some s => strTruthy s

/-- The JavaScript idiom value-or-empty-string on an optional string. -/
def jsOrEmpty : Option String → String
  | none => ""
  | some s => s

/-- Model of JavaScript str.includes(c) for a one-character needle. -/
def containsChar (s : String) (c : Char) : Bool := s.toList.contains c

/-- Model of JavaScript str.slice(0, n) on the ASCII strings handled here. -/
def jsSlice (s : String) (n : Nat) : String := String.mk (s.toList.take n)

/-- Model of JavaScript str.replace(a, b) for one-character patterns:
only the first occurrence is replaced. -/
def replaceFirstChar : List Char → Char → Char → List Char
  | [], _, _ => []
  | c :: cs, a, b => if c = a then b :: cs else c :: replaceFirstChar cs a b

/-- String-level wrapper of replaceFirstChar. -/
def jsReplaceFirst (s : String) (a b : Char) : String :=
  String.mk (replaceFirstChar s.toList a b)

/-- Anchored regex matching for the fixed-shape patterns the page uses:
the pattern character D stands for a digit (the regex d-class), any other
pattern character must occur literally; the subject may extend past the
pattern (the source regexes are anchored at the start only). -/
def matchShape : List Char → List Char → Bool
  | [], _ => true
  | _ :: _, [] => false
  | p :: ps, c :: cs =>
    (if p = 'D' then c.isDigit else decide (c = p)) && matchShape ps cs

/-- The source regex of a space-separated datetime,
d4-d2-d2 space d2:d2:d2, anchored at the start. -/
def matchesDateTimeShape (s : String) : Bool :=
  matchShape ("DDDD-DD-DD DD:DD:DD".toList) s.toList

/-- The source regex of a bare date prefix, d4-d2-d2, anchored at the start. -/
def matchesDateShape (s : String) : Bool :=
  matchShape ("DDDD-DD-DD".toList) s.toList

/-- The non-NaN check every branch of parseDateTime performs on the result
of Date.parse before returning it. -/
def tryParse (p : String → JSNum) (s : String) : Option JSNum :=
  if JSNum.isNaN (p s) then none else some (p s)

/-- Branch 1 of parseDateTime: a space-separated full datetime is
T-substituted and parsed. -/
def branch1 (p : String → JSNum) (dateStr : String) : Option JSNum :=
  if strTruthy dateStr && containsChar dateStr ' ' && matchesDateTimeShape dateStr then
    tryParse p (jsReplaceFirst dateStr ' ' 'T')
  else none

/-- Branch 2 of parseDateTime: an ISO string with a T separator is parsed
directly. -/
def branch2 (p : String → JSNum) (dateStr : String) : Option JSNum :=
  if strTruthy dateStr && containsChar dateStr 'T' then
    tryParse p dateStr
  else none

/-- Branch 3 of parseDateTime: separate date and time fields are combined
as date.slice(0,10) T time. -/
def branch3 (p : String → JSNum) (dateStr : String) (timeStr : Option String) :
    Option JSNum :=
  if strTruthy dateStr && optTruthy timeStr then
    tryParse p (jsSlice dateStr 10 ++ "T" ++ jsOrEmpty timeStr)
  else none

/-- Branch 4 of parseDateTime: a bare date prefix is parsed alone. -/
def branch4 (p : String → JSNum) (dateStr : String) : Option JSNum :=
  if strTruthy dateStr && matchesDateShape dateStr then
    tryParse p (jsSlice dateStr 10)
  else none

/-- Branch 5 of parseDateTime: time only, combined with the fallback date. -/
def branch5 (p : String → JSNum) (timeStr fallbackDate : Option String) :
    Option JSNum :=
  if optTruthy timeStr && optTruthy fallbackDate then
    tryParse p (jsOrEmpty fallbackDate ++ "T" ++ jsOrEmpty timeStr)
  else none

/-- Branch 6 of parseDateTime: a bare date retried at explicit midnight. -/
def branch6 (p : String → JSNum) (dateStr : String) : Option JSNum :=
  if strTruthy dateStr && matchesDateShape dateStr then
    tryParse p (jsSlice dateStr 10 ++ "T00:00:00")
  else none

/-- Embedding of parseDateTime from src/app/dashboard/page.tsx: the six
guarded parse attempts in source order, falling through on guard failure or
a NaN parse, with Number.NEGATIVE_INFINITY as the final fallback.  The
parameter p models the engine's Date.parse. -/
def parseDateTime (p : String → JSNum) (dateStr : String)
    (timeStr fallbackDate : Option String) : JSNum :=
  match branch1 p dateStr with
  | some t => t
  | none =>
  match branch2 p dateStr with
  | some t => t
  | none =>
  match branch3 p dateStr timeStr with
  | some t => t
  | none =>
  match branch4 p dateStr with
  | some t => t
  | none =>
  match branch5 p timeStr fallbackDate with
  | some t => t
  | none =>
  match branch6 p dateStr with
  | some t => t
  | none => JSNum.negInf

/-- Model of a JSON value, the shape of query_params entries. -/
inductive JsonValue where
  | null : JsonValue
  | bool : Bool → JsonValue
  | num : Int → JsonValue
  | str : String → JsonValue
  | arr : List JsonValue → JsonValue
  | obj : List (String × JsonValue) → JsonValue

/-- The analytics record received from the backend
(src/app/dashboard/page.tsx, interface AnalyticsData). -/
structure AnalyticsData where
  endpoint : String
  user : String
  query_params : Option (List (String × JsonValue)) := none
  purpose : Option String := none
  date : Option String := none
  time : Option String := none

/-- Embedding of getSortTimestamp: the record's date (defaulted to the
empty string) and time are handed to parseDateTime together with the
page's fallback date. -/
def getSortTimestamp (p : String → JSNum) (item : AnalyticsData)
    (fallbackDate : String) : JSNum :=
  parseDateTime p (jsOrEmpty item.date) item.time (some fallbackDate)

/-- The two sort directions of the page's sortConfig. -/
inductive SortDirection where
  | asc : SortDirection
  | desc : SortDirection
deriving DecidableEq

/-- Embedding of compareItems on the only sort key the page has
(datetime): descending returns bValue - aValue, ascending aValue - bValue,
in JavaScript arithmetic. -/
def compareItems (p : String → JSNum) (dir : SortDirection)
    (tempDate : String) (a b : AnalyticsData) : JSNum :=
  let aValue := getSortTimestamp p a tempDate
  let bValue := getSortTimestamp p b tempDate
  match dir with
  | SortDirection.desc => bValue.sub aValue
  | SortDirection.asc => aValue.sub bValue

/-- The ordering Array.prototype.sort derives from a comparator:
a is placed strictly before b iff the comparator value is negative
(a NaN comparator value counts as zero, per ECMAScript SortCompare). -/
def sortCompareLt (p : String → JSNum) (dir : SortDirection)
    (tempDate : String) (a b : AnalyticsData) : Bool :=
  JSNum.ltZero (compareItems p dir tempDate a b)

/-- Stable insertion of one element into an already processed list:
the element walks past everything it is not strictly before. -/
def insertSorted {α : Type} (lt : α → α → Bool) (x : α) : List α → List α
  | [] => [x]
  | y :: ys => if lt x y then x :: y :: ys else y :: insertSorted lt x ys

/-- Stable sort by a strict-before test, processing the input left to
right; on a consistent comparator this is exactly the sorted-and-stable
output ECMAScript requires of Array.prototype.sort. -/
def stableSortBy {α : Type} (lt : α → α → Bool) (xs : List α) : List α :=
  xs.foldl (fun acc x => insertSorted lt x acc) []

/-- Embedding of filtered.slice().sort(compareItems). -/
def sortData (p : String → JSNum) (dir : SortDirection) (tempDate : String)
    (xs : List AnalyticsData) : List AnalyticsData :=
  stableSortBy (sortCompareLt p dir tempDate) xs

/-- A trimmed-down model of the JavaScript whitespace set String.trim
removes; the page only ever trims ordinary ASCII whitespace. -/
def jsWhitespace (c : Char) : Bool :=
  decide (c = ' ') || decide (c = '\t') || decide (c = '\n') || decide (c = '\r')

/-- Model of JavaScript String.trim. -/
def jsTrim (s : String) : String :=
  String.mk (((s.toList.dropWhile jsWhitespace).reverse.dropWhile jsWhitespace).reverse)

/-- The bracket test tryParseJSON performs on a trimmed string: it starts
and ends with square brackets, or starts and ends with curly braces. -/
def bracketDelimited (cs : List Char) : Bool :=
  (decide (cs.head? = some '[') && decide (cs.getLast? = some ']'))
    || (decide (cs.head? = some '\x7b') && decide (cs.getLast? = some '\x7d'))

/-- Embedding of tryParseJSON: a string value whose trimmed form is
bracket-delimited is passed to JSON.parse (modelled by the parameter jp,
returning none on a parse exception); every other value, and a string that
fails to parse, is returned unchanged. -/
def tryParseJSON (jp : String → Option JsonValue) : JsonValue → JsonValue
  | JsonValue.str s =>
    let trimmed := jsTrim s
    if bracketDelimited trimmed.toList then
      match jp trimmed with
      | some v => v
      | none => JsonValue.str s
    else JsonValue.str s
  | v => v

/-- Array.isArray on a JSON value. -/
def isArrValue : JsonValue → Bool
  | JsonValue.arr _ => true
  | _ => false

/-- Minimal escaping model for JSON.stringify on the strings handled here
(quote and backslash; control characters do not occur in the data the
claims touch). -/
def escapeJsonChar (c : Char) : List Char :=
  if decide (c = '"') || decide (c = '\\') then ['\\', c] else [c]

/-- JSON.stringify of a bare string (quoted and escaped). -/
def stringifyStr (s : String) : String :=
  String.mk ('"' :: (s.toList.foldr (fun c acc => escapeJsonChar c ++ acc) ['"']))

mutual

/-- Model of JSON.stringify on the JSON values above. -/
def jsonStringify : JsonValue → String
  | JsonValue.null => "null"
  | JsonValue.bool b => if b then "true" else "false"
  | JsonValue.num n => toString n
  | JsonValue.str s => stringifyStr s
  | JsonValue.arr xs => "[" ++ stringifyArrItems xs ++ "]"
  | JsonValue.obj fs => "\x7b" ++ stringifyObjFields fs ++ "\x7d"

/-- Comma-separated stringification of array elements. -/
def stringifyArrItems : List JsonValue → String
  | [] => ""
  | [x] => jsonStringify x
  | x :: y :: xs => jsonStringify x ++ "," ++ stringifyArrItems (y :: xs)

/-- Comma-separated stringification of object fields. -/
def stringifyObjFields : List (String × JsonValue) → String
  | [] => ""
  | [kv] => stringifyStr kv.1 ++ ":" ++ jsonStringify kv.2
  | kv :: kw :: fs =>
    stringifyStr kv.1 ++ ":" ++ jsonStringify kv.2 ++ ","
      ++ stringifyObjFields (kw :: fs)

end

/-- The JavaScript expression String(parsed or-else the empty string)
applied to the primitive values that reach the final else branch of the
flattener (null and undefined collapse to the empty string first). -/
def jsToString : JsonValue → String
  | JsonValue.null => ""
  | JsonValue.bool b => if b then "true" else "false"
  | JsonValue.num n => toString n
  | JsonValue.str s => s
  | JsonValue.arr xs => jsonStringify (JsonValue.arr xs)
  | JsonValue.obj fs => jsonStringify (JsonValue.obj fs)

/-- One display row of the params column. -/
structure ParamRow where
  key : String
  displayValue : String
  isFirstOfKey : Bool
deriving DecidableEq

/-- The per-entry count countTotalRows adds for one params entry:
an array of arrays contributes one row per inner array, everything else
one row. -/
def countForValue : JsonValue → Nat
  | JsonValue.arr xs =>
    if decide (0 < xs.length) && xs.all isArrValue then xs.length else 1
  | _ => 1

/-- The count added for one params entry, after the tryParseJSON step. -/
def countFor (jp : String → Option JsonValue) (kv : String × JsonValue) : Nat :=
  countForValue (tryParseJSON jp kv.2)

/-- The display rows flattenParamsToRows pushes for one params entry:
each inner array of an array of arrays becomes its own row sharing the
outer key, with the first-of-key flag on index zero only; a plain array or
object becomes one stringified row; a primitive becomes one String(...)
row. -/
def rowsForValue (key : String) : JsonValue → List ParamRow
  | JsonValue.arr xs =>
    if decide (0 < xs.length) && xs.all isArrValue then
      xs.enum.map (fun ix =>
        { key := key, displayValue := jsonStringify ix.2,
          isFirstOfKey := decide (ix.1 = 0) })
    else [{ key := key, displayValue := jsonStringify (JsonValue.arr xs),
            isFirstOfKey := true }]
  | JsonValue.obj fs =>
    [{ key := key, displayValue := jsonStringify (JsonValue.obj fs),
       isFirstOfKey := true }]
  | v => [{ key := key, displayValue := jsToString v, isFirstOfKey := true }]

/-- The display rows pushed for one params entry, after the tryParseJSON
step. -/
def rowsFor (jp : String → Option JsonValue) (kv : String × JsonValue) :
    List ParamRow :=
  rowsForValue kv.1 (tryParseJSON jp kv.2)

/-- The entries loop both params helpers share: everything but the user
key, in object insertion order. -/
def paramEntries (params : List (String × JsonValue)) :
    List (String × JsonValue) :=
  params.filter (fun kv => kv.1 != "user")

/-- Embedding of countTotalRows from src/app/dashboard/page.tsx. -/
def countTotalRows (jp : String → Option JsonValue)
    (params : List (String × JsonValue)) : Nat :=
  (paramEntries params).foldl (fun count kv => count + countFor jp kv) 0

/-- Embedding of flattenParamsToRows from src/app/dashboard/page.tsx. -/
def flattenParamsToRows (jp : String → Option JsonValue)
    (params : List (String × JsonValue)) : List ParamRow :=
  (paramEntries params).foldl (fun rows kv => rows ++ rowsFor jp kv) []

/-- Embedding of rowNeedsExpansion: a record expands iff its params
flatten to more than one row (a record without query_params never does). -/
def rowNeedsExpansion (jp : String → Option JsonValue)
    (item : AnalyticsData) : Bool :=
  match item.query_params with
  | none => false
  | some ps => decide (1 < (flattenParamsToRows jp ps).length)

/-- JavaScript split on the slash character (keeping empty segments, as
String.prototype.split does). -/
def splitOnSlash : List Char → List (List Char)
  | [] => [[]]
  | c :: rest =>
    let r := splitOnSlash rest
    if c = '/' then [] :: r
    else
      match r with
      | [] => [[c]]
      | seg :: segs => (c :: seg) :: segs

/-- endpoint.split(slash).filter(Boolean): the non-empty slash-separated
segments of a path. -/
def pathSegments (s : String) : List (List Char) :=
  (splitOnSlash s.toList).filter (fun seg => !seg.isEmpty)

/-- The segment-count rule of getAppFromEndpoint for one table key: same
number of non-empty segments, and every route segment either opens with a
curly brace (a parameter placeholder) or equals the endpoint segment. -/
def segPatternMatches (route endpoint : String) : Bool :=
  let rp := pathSegments route
  let ep := pathSegments endpoint
  decide (rp.length = ep.length)
    && (rp.zip ep).all (fun ab => decide (ab.1.head? = some '\x7b') || ab.1 == ab.2)

/-- Raw string prefix test, JavaScript endpoint.startsWith(route). -/
def rawStartsWith (route endpoint : String) : Bool :=
  List.isPrefixOf route.toList endpoint.toList

/-- Stage 1 of getAppFromEndpoint: exact lookup of the endpoint among the
table keys; the source then tests the looked-up value for truthiness
before returning it. -/
def exactRoute (table : List (String × String)) (endpoint : String) :
    Option String :=
  match table.find? (fun rp => rp.1 == endpoint) with
  | some rp => if strTruthy rp.2 then some rp.2 else none
  | none => none

/-- Stage 2 of getAppFromEndpoint: the first table entry, in iteration
order, whose key segment-matches the endpoint. -/
def segRoute (table : List (String × String)) (endpoint : String) :
    Option String :=
  (table.find? (fun rp => segPatternMatches rp.1 endpoint)).map (fun rp => rp.2)

/-- Stage 3 of getAppFromEndpoint: the first table entry, in iteration
order, whose key is a raw string prefix of the endpoint. -/
def prefixRoute (table : List (String × String)) (endpoint : String) :
    Option String :=
  (table.find? (fun rp => rawStartsWith rp.1 endpoint)).map (fun rp => rp.2)

/-- Embedding of getAppFromEndpoint from src/app/dashboard/page.tsx,
parametrised by the route table (the routeToAppMap data module is not part
of the sources here; an Object.entries iteration is modelled as the
ordered list of its key-value pairs). -/
def getAppFromEndpoint (table : List (String × String)) (endpoint : String) :
    String :=
  if strTruthy endpoint then
    match exactRoute table endpoint with
    | some app => app
    | none =>
      match segRoute table endpoint with
      | some app => app
      | none =>
        match prefixRoute table endpoint with
        | some app => app
        | none => "—"
  else "—"

/-- A concrete Date.parse environment for evaluating claims at concrete
inputs: three ISO datetimes of one fixed environment mapped to their
instants, everything else unparsable. -/
def testEnv : String → JSNum := fun s =>
  if s == "2024-03-05T10:00:00" then JSNum.fin 1709632800000
  else if s == "2024-03-06T10:00:00" then JSNum.fin 1709719200000
  else if s == "2024-03-07T10:00:00" then JSNum.fin 1709805600000
  else JSNum.nan

/-- The fallback date the concrete evaluations use for tempDate. -/
def testFallback : String := "2024-01-01"

/-- Concrete record carrying the earliest of the three test instants. -/
def recT0 : AnalyticsData :=
  { endpoint := "/a", user := "u", date := some "2024-03-05T10:00:00" }

/-- Concrete record carrying the middle test instant. -/
def recT1 : AnalyticsData :=
  { endpoint := "/a", user := "u", date := some "2024-03-06T10:00:00" }

/-- Concrete record carrying the latest test instant. -/
def recT2 : AnalyticsData :=
  { endpoint := "/a", user := "u", date := some "2024-03-07T10:00:00" }

/-- Concrete record whose date no branch of parseDateTime can parse. -/
def recBad : AnalyticsData :=
  { endpoint := "/b", user := "u", date := some "not-a-date" }

/-- A second concrete record with an unparsable date. -/
def recBad2 : AnalyticsData :=
  { endpoint := "/c", user := "v", date := some "also-bad" }

/-- Modelled from the spec: the routeToAppMap data module
(src/app/api/get-details/data) is not among the sources, so this
demonstration table carries the two route patterns the spec names, one
shorter raw-prefix pattern beside each, and locally chosen application
names, in a fixed iteration order. -/
def demoRouteTable : List (String × String) :=
  [("/date_range/\x7bdate_range_id\x7d", "SchedulerApp"),
   ("/date_range", "RangeApp"),
   ("/es/ps", "EsPsApp"),
   ("/es", "EsApp")]

/-- The params mapping of the flattening example:
user maps to the string a, ids to the array of arrays [[1,2],[3,4]]. -/
def exampleParams : List (String × JsonValue) :=
  [("user", JsonValue.str "a"),
   ("ids", JsonValue.arr
      [JsonValue.arr [JsonValue.num 1, JsonValue.num 2],
       JsonValue.arr [JsonValue.num 3, JsonValue.num 4]])]

/-- Concrete record whose query_params is the flattening example. -/
def recParams : AnalyticsData :=
  { endpoint := "/p", user := "a", query_params := some exampleParams }

/-- A pattern with at least one character never matches the empty subject. -/
lemma matchShape_ne_nil {ps cs : List Char} (h : matchShape ps cs = true)
    (hps : ps ≠ []) : cs ≠ [] := by
  cases ps with
  | nil => exact absurd rfl hps
  | cons p ps =>
    cases cs with
    | nil => simp [matchShape] at h
    | cons d ds => exact List.cons_ne_nil _ _

/-- Every literal (non-digit-class) character of a matched pattern occurs
in the subject. -/
lemma matchShape_literal_mem {ps cs : List Char} (h : matchShape ps cs = true) :
    ∀ c ∈ ps, c ≠ 'D' → c ∈ cs := by
  induction ps generalizing cs with
  | nil => intro c hc; simp at hc
  | cons p ps ih =>
    cases cs with
    | nil => simp [matchShape] at h
    | cons d ds =>
      simp only [matchShape, Bool.and_eq_true] at h
      obtain ⟨h1, h2⟩ := h
      intro c hc hcD
      rcases List.mem_cons.mp hc with rfl | hc
      · rw [if_neg hcD] at h1
        have hdc : d = c := of_decide_eq_true h1
        rw [← hdc]
        exact List.mem_cons_self d ds
      · exact List.mem_cons_of_mem _ (ih h2 c hc hcD)

/-- A string matching the space-separated datetime regex is truthy and
contains a space, so it enters branch 1 of parseDateTime. -/
lemma dtShape_facts {s : String} (h : matchesDateTimeShape s = true) :
    strTruthy s = true ∧ containsChar s ' ' = true := by
  unfold matchesDateTimeShape at h
  constructor
  · have hne : s.toList ≠ [] := matchShape_ne_nil h (by decide)
    unfold strTruthy
    cases hl : s.toList.isEmpty
    · rfl
    · exact absurd (List.isEmpty_iff.mp hl) hne
  · have hmem : ' ' ∈ s.toList :=
      matchShape_literal_mem h ' ' (by decide) (by decide)
    unfold containsChar
    exact List.elem_eq_true_of_mem hmem

/-- Claim C7: parseInstant on an empty or undefined date string with no
time and no fallback date returns the negative-infinity sentinel, for
every behaviour of the engine's Date.parse. -/
theorem parse_empty_inputs_sentinel (p : String → JSNum) :
    parseDateTime p "" none none = JSNum.negInf := rfl

/-- Claim C3: whenever the date string matches the space-separated
YYYY-MM-DD HH:MM:SS shape and its T-substituted form parses to an instant,
parseInstant returns exactly that instant, for all values of the optional
time and fallback-date arguments. -/
theorem parse_space_datetime_as_iso (p : String → JSNum) (dateStr : String)
    (timeStr fallbackDate : Option String) (t : Int)
    (hs : matchesDateTimeShape dateStr = true)
    (hp : p (jsReplaceFirst dateStr ' ' 'T') = JSNum.fin t) :
    parseDateTime p dateStr timeStr fallbackDate = JSNum.fin t := by
  obtain ⟨h1, h2⟩ := dtShape_facts hs
  have hb : branch1 p dateStr = some (JSNum.fin t) := by
    unfold branch1
    rw [h1, h2, hs]
    simp [tryParse, hp, JSNum.isNaN]
  unfold parseDateTime
  rw [hb]

/-- Witness for claim C3 at a concrete input and engine. -/
theorem parse_space_datetime_as_iso_witness :
    parseDateTime testEnv "2024-03-05 10:00:00" (some "09:00:00")
        (some "2024-01-01") = JSNum.fin 1709632800000 :=
  parse_space_datetime_as_iso testEnv "2024-03-05 10:00:00" (some "09:00:00")
    (some "2024-01-01") 1709632800000 (by decide) (by decide)

/-- Claim C1: on records whose dates parse, the sort key is monotone with
the natural ordering of the parsed instants (an earlier instant never gets
a larger key); the sentinel key of an unparsable record is strictly below
every parsed key, and the comparator therefore places an unparsable record
strictly before any valid record in ascending order and strictly after it
in descending order. -/
theorem sortKey_monotone_sentinel (p : String → JSNum) (fb : String)
    (a b u : AnalyticsData) (ta tb : Int)
    (ha : getSortTimestamp p a fb = JSNum.fin ta)
    (hb : getSortTimestamp p b fb = JSNum.fin tb)
    (hu : getSortTimestamp p u fb = JSNum.negInf)
    (hab : ta ≤ tb) :
    JSNum.jle (getSortTimestamp p a fb) (getSortTimestamp p b fb) = true
    ∧ JSNum.jlt (getSortTimestamp p u fb) (getSortTimestamp p a fb) = true
    ∧ JSNum.ltZero (compareItems p SortDirection.asc fb u a) = true
    ∧ JSNum.gtZero (compareItems p SortDirection.desc fb u a) = true := by
  refine ⟨?_, ?_, ?_, ?_⟩
  · rw [ha, hb]
    simpa [JSNum.jle] using hab
  · rw [hu, ha]
    rfl
  · simp [compareItems, hu, ha, JSNum.sub, JSNum.ltZero]
  · simp [compareItems, hu, ha, JSNum.sub, JSNum.gtZero]

/-- Witness for claim C1 at concrete records and engine. -/
theorem sortKey_monotone_sentinel_witness :
    JSNum.jle (getSortTimestamp testEnv recT0 testFallback)
        (getSortTimestamp testEnv recT1 testFallback) = true
    ∧ JSNum.jlt (getSortTimestamp testEnv recBad testFallback)
        (getSortTimestamp testEnv recT0 testFallback) = true
    ∧ JSNum.ltZero (compareItems testEnv SortDirection.asc testFallback
        recBad recT0) = true
    ∧ JSNum.gtZero (compareItems testEnv SortDirection.desc testFallback
        recBad recT0) = true :=
  sortKey_monotone_sentinel testEnv testFallback recT0 recT1 recBad
    1709632800000 1709719200000 rfl rfl rfl (by decide)

/-- Claim C10: on two records whose dates are both unparsable the
comparator computes negInf minus negInf, that is NaN, not zero; NaN
satisfies none of negative, zero, positive, so the comparator is not a
consistent comparator there; and the modelled sort (which treats a NaN
comparator value as zero, per ECMAScript SortCompare) leaves either input
order of the two records unchanged, so their relative order is not
determined by the comparator. -/
theorem unparsable_pair_comparator_nan (p : String → JSNum) (fb : String)
    (a b : AnalyticsData)
    (ha : getSortTimestamp p a fb = JSNum.negInf)
    (hb : getSortTimestamp p b fb = JSNum.negInf) :
    compareItems p SortDirection.asc fb a b = JSNum.nan
    ∧ compareItems p SortDirection.desc fb a b = JSNum.nan
    ∧ JSNum.nan ≠ JSNum.fin 0
    ∧ JSNum.ltZero JSNum.nan = false
    ∧ JSNum.gtZero JSNum.nan = false
    ∧ sortData p SortDirection.asc fb [a, b] = [a, b]
    ∧ sortData p SortDirection.asc fb [b, a] = [b, a] := by
  refine ⟨?_, ?_, by decide, rfl, rfl, ?_, ?_⟩
  · simp [compareItems, ha, hb, JSNum.sub]
  · simp [compareItems, ha, hb, JSNum.sub]
  · simp [sortData, stableSortBy, insertSorted, sortCompareLt, compareItems,
      ha, hb, JSNum.sub, JSNum.ltZero]
  · simp [sortData, stableSortBy, insertSorted, sortCompareLt, compareItems,
      ha, hb, JSNum.sub, JSNum.ltZero]

/-- Witness for claim C10 at two concrete unparsable-dated records. -/
theorem unparsable_pair_comparator_nan_witness :
    compareItems testEnv SortDirection.asc testFallback recBad recBad2
        = JSNum.nan
    ∧ compareItems testEnv SortDirection.desc testFallback recBad recBad2
        = JSNum.nan
    ∧ JSNum.nan ≠ JSNum.fin 0
    ∧ JSNum.ltZero JSNum.nan = false
    ∧ JSNum.gtZero JSNum.nan = false
    ∧ sortData testEnv SortDirection.asc testFallback [recBad, recBad2]
        = [recBad, recBad2]
    ∧ sortData testEnv SortDirection.asc testFallback [recBad2, recBad]
        = [recBad2, recBad] :=
  unparsable_pair_comparator_nan testEnv testFallback recBad recBad2 rfl rfl

/-- A successful tryParse returns exactly the engine's parse result, and
only after checking it is not NaN. -/
lemma tryParse_some_cases {p : String → JSNum} {s : String} {v : JSNum}
    (h : tryParse p s = some v) : v = p s ∧ v ≠ JSNum.nan := by
  unfold tryParse at h
  split at h
  · exact absurd h (by simp)
  · rename_i hn
    injection h with h2
    refine ⟨h2.symm, ?_⟩
    intro hv
    exact hn (by rw [h2, hv]; rfl)

/-- If the engine only ever answers NaN or a finite number (as Date.parse
does), a successful tryParse is finite. -/
lemma tryParse_fin {p : String → JSNum} {s : String} {v : JSNum}
    (hp : ∀ u, p u = JSNum.nan ∨ ∃ n : Int, p u = JSNum.fin n)
    (h : tryParse p s = some v) : ∃ n : Int, v = JSNum.fin n := by
  obtain ⟨hv, hnan⟩ := tryParse_some_cases h
  rcases hp s with h1 | ⟨n, h1⟩
  · exact absurd (hv.trans h1) hnan
  · exact ⟨n, hv.trans h1⟩

/-- Every value a date-bearing branch yields comes out of a tryParse. -/
lemma branch1_some_cases {p : String → JSNum} {d : String} {v : JSNum}
    (h : branch1 p d = some v) : ∃ s, tryParse p s = some v := by
  unfold branch1 at h
  split at h
  · exact ⟨_, h⟩
  · exact absurd h (by simp)

/-- Every value branch 2 yields comes out of a tryParse. -/
lemma branch2_some_cases {p : String → JSNum} {d : String} {v : JSNum}
    (h : branch2 p d = some v) : ∃ s, tryParse p s = some v := by
  unfold branch2 at h
  split at h
  · exact ⟨_, h⟩
  · exact absurd h (by simp)

/-- Every value branch 3 yields comes out of a tryParse. -/
lemma branch3_some_cases {p : String → JSNum} {d : String} {ts : Option String}
    {v : JSNum} (h : branch3 p d ts = some v) : ∃ s, tryParse p s = some v := by
  unfold branch3 at h
  split at h
  · exact ⟨_, h⟩
  · exact absurd h (by simp)

/-- Every value branch 4 yields comes out of a tryParse. -/
lemma branch4_some_cases {p : String → JSNum} {d : String} {v : JSNum}
    (h : branch4 p d = some v) : ∃ s, tryParse p s = some v := by
  unfold branch4 at h
  split at h
  · exact ⟨_, h⟩
  · exact absurd h (by simp)

/-- Every value branch 5 yields comes out of a tryParse. -/
lemma branch5_some_cases {p : String → JSNum} {ts fb : Option String}
    {v : JSNum} (h : branch5 p ts fb = some v) : ∃ s, tryParse p s = some v := by
  unfold branch5 at h
  split at h
  · exact ⟨_, h⟩
  · exact absurd h (by simp)

/-- Every value branch 6 yields comes out of a tryParse. -/
lemma branch6_some_cases {p : String → JSNum} {d : String} {v : JSNum}
    (h : branch6 p d = some v) : ∃ s, tryParse p s = some v := by
  unfold branch6 at h
  split at h
  · exact ⟨_, h⟩
  · exact absurd h (by simp)

/-- parseDateTime either falls through every branch to the sentinel, or
returns the value of some branch. -/
lemma parseDateTime_branch_cases (p : String → JSNum) (d : String)
    (ts fb : Option String) :
    parseDateTime p d ts fb = JSNum.negInf
    ∨ branch1 p d = some (parseDateTime p d ts fb)
    ∨ branch2 p d = some (parseDateTime p d ts fb)
    ∨ branch3 p d ts = some (parseDateTime p d ts fb)
    ∨ branch4 p d = some (parseDateTime p d ts fb)
    ∨ branch5 p ts fb = some (parseDateTime p d ts fb)
    ∨ branch6 p d = some (parseDateTime p d ts fb) := by
  cases h1 : branch1 p d with
  | some t => simp [parseDateTime, h1]
  | none =>
  cases h2 : branch2 p d with
  | some t => simp [parseDateTime, h1, h2]
  | none =>
  cases h3 : branch3 p d ts with
  | some t => simp [parseDateTime, h1, h2, h3]
  | none =>
  cases h4 : branch4 p d with
  | some t => simp [parseDateTime, h1, h2, h3, h4]
  | none =>
  cases h5 : branch5 p ts fb with
  | some t => simp [parseDateTime, h1, h2, h3, h4, h5]
  | none =>
  cases h6 : branch6 p d with
  | some t => simp [parseDateTime, h1, h2, h3, h4, h5, h6]
  | none => simp [parseDateTime, h1, h2, h3, h4, h5, h6]

/-- Claim C4: parseInstant is total with no exception path: whenever the
engine's Date.parse yields only NaN or finite numbers, the result is the
negative-infinity sentinel or a finite instant; each branch returns only a
non-NaN parse result; the branches are consulted in strict source order,
each falling through exactly when it yields nothing; and exhausting all
six branches is the only way to reach the sentinel. -/
theorem parseDateTime_total_structure (p : String → JSNum)
    (hp : ∀ u, p u = JSNum.nan ∨ ∃ n : Int, p u = JSNum.fin n)
    (d : String) (ts fb : Option String) :
    (parseDateTime p d ts fb = JSNum.negInf
      ∨ ∃ n : Int, parseDateTime p d ts fb = JSNum.fin n)
    ∧ (∀ v, branch1 p d = some v → v ≠ JSNum.nan)
    ∧ (∀ v, branch2 p d = some v → v ≠ JSNum.nan)
    ∧ (∀ v, branch3 p d ts = some v → v ≠ JSNum.nan)
    ∧ (∀ v, branch4 p d = some v → v ≠ JSNum.nan)
    ∧ (∀ v, branch5 p ts fb = some v → v ≠ JSNum.nan)
    ∧ (∀ v, branch6 p d = some v → v ≠ JSNum.nan)
    ∧ (∀ v, branch1 p d = some v → parseDateTime p d ts fb = v)
    ∧ (branch1 p d = none → ∀ v, branch2 p d = some v →
        parseDateTime p d ts fb = v)
    ∧ (branch1 p d = none → branch2 p d = none → ∀ v,
        branch3 p d ts = some v → parseDateTime p d ts fb = v)
    ∧ (branch1 p d = none → branch2 p d = none → branch3 p d ts = none →
        ∀ v, branch4 p d = some v → parseDateTime p d ts fb = v)
    ∧ (branch1 p d = none → branch2 p d = none → branch3 p d ts = none →
        branch4 p d = none → ∀ v, branch5 p ts fb = some v →
        parseDateTime p d ts fb = v)
    ∧ (branch1 p d = none → branch2 p d = none → branch3 p d ts = none →
        branch4 p d = none → branch5 p ts fb = none → ∀ v,
        branch6 p d = some v → parseDateTime p d ts fb = v)
    ∧ (branch1 p d = none → branch2 p d = none → branch3 p d ts = none →
        branch4 p d = none → branch5 p ts fb = none → branch6 p d = none →
        parseDateTime p d ts fb = JSNum.negInf) := by
  refine ⟨?_, ?_, ?_, ?_, ?_, ?_, ?_, ?_, ?_, ?_, ?_, ?_, ?_, ?_⟩
  · rcases parseDateTime_branch_cases p d ts fb with h | h | h | h | h | h | h
    · exact Or.inl h
    · exact Or.inr (by
        obtain ⟨s, hs⟩ := branch1_some_cases h
        exact tryParse_fin hp hs)
    · exact Or.inr (by
        obtain ⟨s, hs⟩ := branch2_some_cases h
        exact tryParse_fin hp hs)
    · exact Or.inr (by
        obtain ⟨s, hs⟩ := branch3_some_cases h
        exact tryParse_fin hp hs)
    · exact Or.inr (by
        obtain ⟨s, hs⟩ := branch4_some_cases h
        exact tryParse_fin hp hs)
    · exact Or.inr (by
        obtain ⟨s, hs⟩ := branch5_some_cases h
        exact tryParse_fin hp hs)
    · exact Or.inr (by
        obtain ⟨s, hs⟩ := branch6_some_cases h
        exact tryParse_fin hp hs)
  · intro v h
    obtain ⟨s, hs⟩ := branch1_some_cases h
    exact (tryParse_some_cases hs).2
  · intro v h
    obtain ⟨s, hs⟩ := branch2_some_cases h
    exact (tryParse_some_cases hs).2
  · intro v h
    obtain ⟨s, hs⟩ := branch3_some_cases h
    exact (tryParse_some_cases hs).2
  · intro v h
    obtain ⟨s, hs⟩ := branch4_some_cases h
    exact (tryParse_some_cases hs).2
  · intro v h
    obtain ⟨s, hs⟩ := branch5_some_cases h
    exact (tryParse_some_cases hs).2
  · intro v h
    obtain ⟨s, hs⟩ := branch6_some_cases h
    exact (tryParse_some_cases hs).2
  · intro v h1
    simp [parseDateTime, h1]
  · intro h1 v h2
    simp [parseDateTime, h1, h2]
  · intro h1 h2 v h3
    simp [parseDateTime, h1, h2, h3]
  · intro h1 h2 h3 v h4
    simp [parseDateTime, h1, h2, h3, h4]
  · intro h1 h2 h3 h4 v h5
    simp [parseDateTime, h1, h2, h3, h4, h5]
  · intro h1 h2 h3 h4 h5 v h6
    simp [parseDateTime, h1, h2, h3, h4, h5, h6]
  · intro h1 h2 h3 h4 h5 h6
    simp [parseDateTime, h1, h2, h3, h4, h5, h6]

/-- The concrete test engine only answers NaN or a finite instant. -/
lemma testEnv_wellformed :
    ∀ u, testEnv u = JSNum.nan ∨ ∃ n : Int, testEnv u = JSNum.fin n := by
  intro u
  unfold testEnv
  repeat' split
  · exact Or.inr ⟨_, rfl⟩
  · exact Or.inr ⟨_, rfl⟩
  · exact Or.inr ⟨_, rfl⟩
  · exact Or.inl rfl

/-- Witness for claim C4 at a concrete engine and input. -/
theorem parseDateTime_total_structure_witness :
    parseDateTime testEnv "garbage" none none = JSNum.negInf
    ∨ ∃ n : Int, parseDateTime testEnv "garbage" none none = JSNum.fin n :=
  (parseDateTime_total_structure testEnv testEnv_wellformed "garbage"
    none none).1

/-- The rows pushed for one params entry are exactly as many as the count
added for it. -/
lemma rowsFor_length (jp : String → Option JsonValue)
    (kv : String × JsonValue) : (rowsFor jp kv).length = countFor jp kv := by
  unfold rowsFor countFor
  generalize tryParseJSON jp kv.2 = v
  cases v with
  | arr xs =>
    simp only [rowsForValue, countForValue]
    split
    · rw [List.length_map, List.enum_length]
    · rfl
  | null => rfl
  | bool b => rfl
  | num n => rfl
  | str s => rfl
  | obj fs => rfl

/-- Folding the flattener over any entry list, from any accumulated rows,
produces as many rows as folding the counter from the accumulated length. -/
lemma flatten_foldl_length (jp : String → Option JsonValue)
    (l : List (String × JsonValue)) :
    ∀ rows : List ParamRow,
      (l.foldl (fun r kv => r ++ rowsFor jp kv) rows).length
        = l.foldl (fun n kv => n + countFor jp kv) rows.length := by
  induction l with
  | nil => intro rows; rfl
  | cons kv l ih =>
    intro rows
    simp only [List.foldl_cons]
    rw [ih]
    rw [List.length_append, rowsFor_length]

/-- Claim C9: the independently implemented row counter and the row
flattener agree on the number of display rows, for every params mapping
and every behaviour of JSON.parse. -/
theorem count_eq_flatten_length (jp : String → Option JsonValue)
    (params : List (String × JsonValue)) :
    countTotalRows jp params = (flattenParamsToRows jp params).length := by
  unfold countTotalRows flattenParamsToRows
  rw [flatten_foldl_length]
  rfl

/-- Claim C8: flattening the mapping with user bound to a and ids bound to
the array of arrays [[1,2],[3,4]] yields exactly two rows, both keyed ids,
with the first-of-key flag on the first row only; and rowNeedsExpansion
holds of a record carrying those query_params.  This is independent of the
behaviour of JSON.parse, which is never consulted on these values. -/
theorem flatten_example_two_rows (jp : String → Option JsonValue) :
    (flattenParamsToRows jp exampleParams).map
        (fun r => (r.key, r.isFirstOfKey)) = [("ids", true), ("ids", false)]
    ∧ (flattenParamsToRows jp exampleParams).length = 2
    ∧ rowNeedsExpansion jp recParams = true := by
  refine ⟨rfl, rfl, rfl⟩

/-- find? returns the designated element of a list when nothing before it
satisfies the test: the embedding of first-in-iteration-order-wins. -/
lemma find_first_block {α : Type} (q : α → Bool) (pre : List α) (x : α)
    (post : List α) (hx : q x = true) (hpre : ∀ y ∈ pre, q y = false) :
    (pre ++ x :: post).find? q = some x := by
  induction pre with
  | nil => exact List.find?_cons_of_pos _ hx
  | cons a l ih =>
    rw [List.cons_append,
      List.find?_cons_of_neg _ (by simp [hpre a (List.mem_cons_self a l)])]
    exact ih (fun y hy => hpre y (List.mem_cons_of_mem a hy))

/-- Claim C5: the resolver consults its three stages in strict order —
exact table lookup, then segment-count match with curly-brace wildcards
(first matching key in iteration order), then raw prefix match, then the
dash sentinel — and on the demonstration table the endpoint
/date_range/123 is resolved by the segment rule to the parameterised
pattern even though the prefix rule would also have matched. -/
theorem resolver_stage_order (table : List (String × String))
    (endpoint : String) (hne : strTruthy endpoint = true) :
    (∀ app, exactRoute table endpoint = some app →
        getAppFromEndpoint table endpoint = app)
    ∧ (∀ pre r app post,
        exactRoute table endpoint = none →
        table = pre ++ (r, app) :: post →
        segPatternMatches r endpoint = true →
        (∀ e ∈ pre, segPatternMatches e.1 endpoint = false) →
        getAppFromEndpoint table endpoint = app)
    ∧ (∀ app, exactRoute table endpoint = none →
        segRoute table endpoint = none →
        prefixRoute table endpoint = some app →
        getAppFromEndpoint table endpoint = app)
    ∧ (exactRoute table endpoint = none →
        segRoute table endpoint = none →
        prefixRoute table endpoint = none →
        getAppFromEndpoint table endpoint = "—")
    ∧ getAppFromEndpoint demoRouteTable "/date_range/123" = "SchedulerApp"
    ∧ segRoute demoRouteTable "/date_range/123" = some "SchedulerApp"
    ∧ prefixRoute demoRouteTable "/date_range/123" = some "RangeApp"
    ∧ exactRoute demoRouteTable "/date_range/123" = none := by
  refine ⟨?_, ?_, ?_, ?_, by decide, by decide, by decide, by decide⟩
  · intro app h
    simp [getAppFromEndpoint, hne, h]
  · intro pre r app post hex htab hseg hpre
    have hs : segRoute table endpoint = some app := by
      unfold segRoute
      rw [htab, find_first_block _ pre (r, app) post hseg hpre]
      rfl
    simp [getAppFromEndpoint, hne, hex, hs]
  · intro app hex hseg hpr
    simp [getAppFromEndpoint, hne, hex, hseg, hpr]
  · intro hex hseg hpr
    simp [getAppFromEndpoint, hne, hex, hseg, hpr]

/-- Witness for claim C5 at the demonstration table. -/
theorem resolver_stage_order_witness :
    strTruthy "/date_range/123" = true
    ∧ getAppFromEndpoint demoRouteTable "/date_range/123" = "SchedulerApp" :=
  ⟨by decide,
    (resolver_stage_order demoRouteTable "/date_range/123"
      (by decide)).2.2.2.2.1⟩

/-- Claim C6: with no exact and no segment match, the resolver returns the
application of the first table key, in iteration order, that is a raw
string prefix of the endpoint, with no segment-boundary enforcement: on
the demonstration table /es/ps/extra resolves to the application of
/es/ps, and the unrelated /estimate resolves to the application of the
pattern /es. -/
theorem resolver_prefix_raw (table : List (String × String))
    (endpoint : String) (pre : List (String × String)) (r app : String)
    (post : List (String × String))
    (hne : strTruthy endpoint = true)
    (hex : exactRoute table endpoint = none)
    (hseg : segRoute table endpoint = none)
    (htab : table = pre ++ (r, app) :: post)
    (hpr : rawStartsWith r endpoint = true)
    (hpre : ∀ e ∈ pre, rawStartsWith e.1 endpoint = false) :
    getAppFromEndpoint table endpoint = app
    ∧ getAppFromEndpoint demoRouteTable "/es/ps/extra" = "EsPsApp"
    ∧ getAppFromEndpoint demoRouteTable "/es/ps" = "EsPsApp"
    ∧ getAppFromEndpoint demoRouteTable "/estimate" = "EsApp" := by
  refine ⟨?_, by decide, by decide, by decide⟩
  have hp : prefixRoute table endpoint = some app := by
    unfold prefixRoute
    rw [htab, find_first_block _ pre (r, app) post hpr hpre]
    rfl
  simp [getAppFromEndpoint, hne, hex, hseg, hp]

/-- Witness for claim C6 at the demonstration table. -/
theorem resolver_prefix_raw_witness :
    getAppFromEndpoint demoRouteTable "/es/ps/extra" = "EsPsApp" :=
  (resolver_prefix_raw demoRouteTable "/es/ps/extra"
    [("/date_range/\x7bdate_range_id\x7d", "SchedulerApp"),
     ("/date_range", "RangeApp")]
    "/es/ps" "EsPsApp" [("/es", "EsApp")]
    (by decide) (by decide) (by decide) (by decide) (by decide)
    (by decide)).1

/-- Counterexample to claim C2 as stated: on the ascending sort the record
with the unparsable date comes FIRST, not last (and on the descending sort
it comes last, not first).  The comparator returns negInf minus a finite
key, which is negative, so the unparsable record is placed before every
valid one in ascending order. -/
theorem sort_unparsable_ascending_counterexample :
    sortData testEnv SortDirection.asc testFallback [recBad, recT0]
        = [recBad, recT0]
    ∧ getSortTimestamp testEnv recBad testFallback = JSNum.negInf
    ∧ getSortTimestamp testEnv recT0 testFallback
        = JSNum.fin 1709632800000
    ∧ sortData testEnv SortDirection.asc testFallback [recBad, recT0]
        ≠ [recT0, recBad]
    ∧ sortData testEnv SortDirection.desc testFallback [recT0, recBad]
        = [recT0, recBad]
    ∧ sortData testEnv SortDirection.desc testFallback [recT0, recBad]
        ≠ [recBad, recT0] := by
  have hneq : recBad ≠ recT0 := by
    intro h
    have hd := congrArg AnalyticsData.date h
    have hs : ("not-a-date" : String) = "2024-03-05T10:00:00" :=
      Option.some.inj hd
    exact absurd hs (by decide)
  have easc : sortData testEnv SortDirection.asc testFallback [recBad, recT0]
      = [recBad, recT0] := rfl
  have edesc : sortData testEnv SortDirection.desc testFallback
      [recT0, recBad] = [recT0, recBad] := rfl
  refine ⟨easc, rfl, rfl, ?_, edesc, ?_⟩
  · intro h
    have hl : ([recBad, recT0] : List AnalyticsData) = [recT0, recBad] :=
      easc.symm.trans h
    exact hneq (Option.some.inj (congrArg List.head? hl))
  · intro h
    have hl : ([recT0, recBad] : List AnalyticsData) = [recBad, recT0] :=
      edesc.symm.trans h
    exact hneq.symm (Option.some.inj (congrArg List.head? hl))

/-- Claim C2 (amended): given records whose instants are listed as
[t2, t0, t1] with t0 < t1 < t2, ascending sort yields [t0, t1, t2] and
descending yields [t2, t1, t0]; a record with an unparsable date appears
FIRST under ascending and LAST under descending (the original claim had
these two positions swapped). -/
theorem sort_order_amended (p : String → JSNum) (fb : String)
    (r0 r1 r2 ru rv : AnalyticsData) (t0 t1 t2 tv : Int)
    (h0 : getSortTimestamp p r0 fb = JSNum.fin t0)
    (h1 : getSortTimestamp p r1 fb = JSNum.fin t1)
    (h2 : getSortTimestamp p r2 fb = JSNum.fin t2)
    (h01 : t0 < t1) (h12 : t1 < t2)
    (hu : getSortTimestamp p ru fb = JSNum.negInf)
    (hv : getSortTimestamp p rv fb = JSNum.fin tv) :
    sortData p SortDirection.asc fb [r2, r0, r1] = [r0, r1, r2]
    ∧ sortData p SortDirection.desc fb [r2, r0, r1] = [r2, r1, r0]
    ∧ sortData p SortDirection.asc fb [rv, ru] = [ru, rv]
    ∧ sortData p SortDirection.desc fb [ru, rv] = [rv, ru] := by
  have a02 : sortCompareLt p SortDirection.asc fb r0 r2 = true := by
    simp [sortCompareLt, compareItems, h0, h2, JSNum.sub, JSNum.ltZero]
    omega
  have a10 : sortCompareLt p SortDirection.asc fb r1 r0 = false := by
    simp [sortCompareLt, compareItems, h0, h1, JSNum.sub, JSNum.ltZero]
    omega
  have a12 : sortCompareLt p SortDirection.asc fb r1 r2 = true := by
    simp [sortCompareLt, compareItems, h1, h2, JSNum.sub, JSNum.ltZero]
    omega
  have d02 : sortCompareLt p SortDirection.desc fb r0 r2 = false := by
    simp [sortCompareLt, compareItems, h0, h2, JSNum.sub, JSNum.ltZero]
    omega
  have d12 : sortCompareLt p SortDirection.desc fb r1 r2 = false := by
    simp [sortCompareLt, compareItems, h1, h2, JSNum.sub, JSNum.ltZero]
    omega
  have d10 : sortCompareLt p SortDirection.desc fb r1 r0 = true := by
    simp [sortCompareLt, compareItems, h0, h1, JSNum.sub, JSNum.ltZero]
    omega
  have auv : sortCompareLt p SortDirection.asc fb ru rv = true := by
    simp [sortCompareLt, compareItems, hu, hv, JSNum.sub, JSNum.ltZero]
  have dvu : sortCompareLt p SortDirection.desc fb rv ru = true := by
    simp [sortCompareLt, compareItems, hu, hv, JSNum.sub, JSNum.ltZero]
  refine ⟨?_, ?_, ?_, ?_⟩
  · simp [sortData, stableSortBy, insertSorted, a02, a10, a12]
  · simp [sortData, stableSortBy, insertSorted, d02, d12, d10]
  · simp [sortData, stableSortBy, insertSorted, auv]
  · simp [sortData, stableSortBy, insertSorted, dvu]

/-- Witness for the amended claim C2 at concrete records and engine. -/
theorem sort_order_amended_witness :
    sortData testEnv SortDirection.asc testFallback [recT2, recT0, recT1]
        = [recT0, recT1, recT2]
    ∧ sortData testEnv SortDirection.desc testFallback [recT2, recT0, recT1]
        = [recT2, recT1, recT0]
    ∧ sortData testEnv SortDirection.asc testFallback [recT0, recBad]
        = [recBad, recT0]
    ∧ sortData testEnv SortDirection.desc testFallback [recBad, recT0]
        = [recT0, recBad] :=
  sort_order_amended testEnv testFallback recT0 recT1 recT2 recBad recT0
    1709632800000 1709719200000 1709805600000 1709632800000
    rfl rfl rfl (by decide) (by decide) rfl rfl
